import Mathlib

/-!
# Verification of the ox_ui command-to-form adapter library

A shallow embedding of the `ox_ui` Python package:

* `ox_ui/core/c2f.py`  — `ClickToWTF` (web form adapter), `DateTimeFieldTweak`,
  `click_opt_to_wtf_field`;
* `ox_ui/core/c2g.py`  — `ClickToGeneric` (framework-free adapter),
  `GenericField`, `click_opt_to_field`;
* `ox_ui/core/decorators.py` — the `watched` timing/logging decorator and the
  `LockFile` advisory lock;
* `ox_ui/test_tools/server_tools.py` — `run_cmd`.

Python values flowing through the adapters are modelled by the inductive
`Value`; Python dictionaries by duplicate-free association lists (`Dict`)
with assignment (`dset`) mirroring `d[k] = v`.  External collaborators
(click's type objects, WTForms field processing, dateutil's parser, the file
system, subprocesses) are modelled only through the narrow contracts the
source relies on, as noted on each definition.
-/

namespace OxUi

/-- A Python value as it flows through the adapters.  `vThunk r` models a
callable default (calling it yields `r`); `vDate` models a
`datetime.datetime`. -/
inductive Value where
  | vNone
  | vBool (b : Bool)
  | vInt (n : Int)
  | vStr (s : String)
  | vDate (year month day hour minute second : Nat)
  | vList (elts : List Value)
  | vThunk (result : Value)

/-- Python truthiness of a `Value` (`bool(v)` in Python). -/
def falsy : Value → Bool
  | .vNone => true
  | .vBool b => !b
  | .vInt n => n == 0
  | .vStr s => s == ""
  | .vList elts => elts.isEmpty
  | .vDate _ _ _ _ _ _ => false
  | .vThunk _ => false

/-- `callable(v)` in Python, restricted to our value model. -/
def isCallable : Value → Bool
  | .vThunk _ => true
  | _ => false

/-- Calling a callable default once (`default()` in the source); other
values are returned unchanged. -/
def callValue : Value → Value
  | .vThunk r => r
  | v => v

/-- A Python `dict` with string keys, as an association list that is kept
duplicate-free by construction (every dict in the source is built by
repeated assignment starting from a fresh dict). -/
abbrev Dict := List (String × Value)

/-- `d.get(k)` / `d[k]`-style lookup: the binding for `k`, if any. -/
def dget : Dict → String → Option Value
  | [], _ => none
  | p :: rest, k => if p.1 == k then some p.2 else dget rest k

/-- `d[k] = v`: replace the binding for `k` if present (keeping its
position, as Python dicts do), otherwise append a new binding. -/
def dset : Dict → String → Value → Dict
  | [], k, v => [(k, v)]
  | p :: rest, k, v =>
    if p.1 == k then (k, v) :: rest else p :: dset rest k v

/-- Run a sequence of assignments `d[k] = v` left to right (the effect of a
loop of dict assignments, or of unpacking `{**d, **kw}`). -/
def apply_assignments : List (String × Value) → Dict → Dict
  | [], d => d
  | p :: ps, d => apply_assignments ps (dset d p.1 p.2)

/-- The value of the last assignment to `k` in a list of assignments. -/
def last_assign : List (String × Value) → String → Option Value
  | [], _ => none
  | p :: ps, k =>
    match last_assign ps k with
    | some v => some v
    | none => if p.1 == k then some p.2 else none

/-- Keys appearing in a dict. -/
def dkeys (d : Dict) : List String := d.map Prod.fst

/-! ## The click side: option descriptors

Models the click collaborator's `ParamType` objects and `Option` parameters
as the adapters consume them (`opt.type`, `opt.name`, `opt.default`,
`opt.required`, `opt.multiple`, `opt.hide_input`, `opt.help`). -/

/-- A click parameter type.  `int`, `string` and `bool` stand for the
singleton objects `types.INT`, `types.STRING`, `types.BOOL` (compared by
identity in `opt.type == types.INT` etc.); `dateTime`, `file`, `choice`,
`path` are instances of the corresponding `ParamType` subclasses;
`custom n` is any other `ParamType` whose `name` attribute is `n`. -/
inductive CType where
  | int
  | string
  | bool
  | dateTime (formats : List String)
  | file (mode : String)
  | path
  | choice (choices : List String)
  | custom (tyname : String)
  deriving DecidableEq, Repr

/-- The `name` attribute click gives each `ParamType`. -/
def CType.tname : CType → String
  | .int => "integer"
  | .string => "text"
  | .bool => "boolean"
  | .dateTime _ => "datetime"
  | .file _ => "filename"
  | .path => "path"
  | .choice _ => "choice"
  | .custom n => n

/-- `isinstance(opt.type, types.DateTime) or getattr(opt.type, 'name', '?')
== 'datetime'` from both mappers. -/
def CType.isDateTimeLike (t : CType) : Bool :=
  match t with
  | .dateTime _ => true
  | _ => t.tname == "datetime"

/-- `isinstance(opt.type, types.File) and opt.type.mode in ('r', 'rb')`. -/
def CType.isFileRead : CType → Bool
  | .file mode => mode == "r" || mode == "rb"
  | _ => false

/-- `isinstance(opt.type, (types.File, types.Path))`. -/
def CType.isFileOrPath : CType → Bool
  | .file _ => true
  | .path => true
  | _ => false

/-- Models the string Python interpolates for `{opt.type}` in the two
`TypeError` messages: a printed form that names the type object. -/
def CType.tstr : CType → String
  | .int => "INT"
  | .string => "STRING"
  | .bool => "BOOL"
  | .dateTime _ => "DateTime"
  | .file _ => "<click.types.File object>"
  | .path => "<click.types.Path object>"
  | .choice _ => "Choice"
  | .custom n => n

/-- One click option descriptor, as read by the adapters.  `formats` models
`getattr(opt, 'formats', ...)`: present only when the option object itself
carries a `formats` attribute. -/
structure Opt where
  name : String
  type : CType
  default : Value
  required : Bool
  multiple : Bool
  hide_input : Bool
  help : String
  formats : Option (List String)

/-! ## Models of external parsers

`datetime.strptime` and `dateutil.parser.parse` belong to external
collaborators; the fragments below model their documented behaviour on the
ISO-style inputs this repository feeds them, treating everything else as
unparseable. -/

/-- Character-level splitting on a separator (never returns `[]`). -/
def splitChars (sep : Char) : List Char → List (List Char)
  | [] => [[]]
  | ch :: rest =>
    match splitChars sep rest with
    | [] => [[]]
    | g :: gs => if ch = sep then [] :: g :: gs else (ch :: g) :: gs

/-- Split a string on a one-character separator (the `str.split` the
modelled parsers perform). -/
def splitOnChar (s : String) (sep : Char) : List String :=
  (splitChars sep s.data).map String.mk

/-- Decimal value of a digit string. -/
def charsToNat (cs : List Char) : Nat :=
  cs.foldl (fun acc c => acc * 10 + (c.toNat - 48)) 0

/-- Parse a natural-number field: non-empty, all digits. -/
def parseNatField (s : String) : Option Nat :=
  if s.data ≠ [] ∧ s.data.all Char.isDigit then some (charsToNat s.data)
  else none

/-- Models `datetime.datetime.strptime(s, '%Y-%m-%d %H:%M:%S')`: accepts
exactly `YYYY-MM-DD HH:MM:SS`, raising (here: `.error`) otherwise. -/
def strptime_ymd_hms (s : String) : Except String Value :=
  match splitOnChar s ' ' with
  | [datePart, timePart] =>
    (match splitOnChar datePart '-', splitOnChar timePart ':' with
     | [y, mo, d], [h, mi, se] =>
       (match parseNatField y, parseNatField mo, parseNatField d,
              parseNatField h, parseNatField mi, parseNatField se with
        | some yn, some mon, some dn, some hn, some min_, some sen =>
          if y.length = 4 ∧ 1 ≤ mon ∧ mon ≤ 12 ∧ 1 ≤ dn ∧ dn ≤ 31 ∧
              hn ≤ 23 ∧ min_ ≤ 59 ∧ sen ≤ 59 then
            .ok (.vDate yn mon dn hn min_ sen)
          else
            .error ("time data " ++ s ++
              " does not match format %Y-%m-%d %H:%M:%S")
        | _, _, _, _, _, _ =>
          .error ("time data " ++ s ++
            " does not match format %Y-%m-%d %H:%M:%S"))
     | _, _ =>
       .error ("time data " ++ s ++
         " does not match format %Y-%m-%d %H:%M:%S"))
  | _ =>
    .error ("time data " ++ s ++
      " does not match format %Y-%m-%d %H:%M:%S")

/-- Models `dateutil.parser.parse` on the fragment exercised here: a bare
ISO date `YYYY-MM-DD` parses to midnight of that day; anything else raises
`ParserError` (here: `.error`) with dateutil's message. -/
def dateutil_parse (s : String) : Except String Value :=
  match splitOnChar s '-' with
  | [y, mo, d] =>
    (match parseNatField y, parseNatField mo, parseNatField d with
     | some yn, some mon, some dn =>
       if y.length = 4 ∧ 1 ≤ mon ∧ mon ≤ 12 ∧ 1 ≤ dn ∧ dn ≤ 31 then
         .ok (.vDate yn mon dn 0 0 0)
       else .error ("Unknown string format: " ++ s)
     | _, _, _ => .error ("Unknown string format: " ++ s))
  | _ => .error ("Unknown string format: " ++ s)

/-! ## c2f.py: `click_opt_to_wtf_field` -/

/-- A validator attached to a WTForms field; the mapper only ever attaches
`DataRequired('* required field')`. -/
inductive Validator where
  | dataRequired (message : String)
  deriving DecidableEq, Repr

/-- Which WTForms field class the mapper instantiated. -/
inductive WFieldKind where
  | integerField
  | stringField
  | passwordField
  | dateTimeFieldTweak (formats : List String)
  | fileField
  | selectField (choices : List (String × String))
  deriving DecidableEq, Repr

/-- A constructed WTForms field: class, constructor label (the option
name), validators, description and compiled default. -/
structure WTFField where
  name : String
  kind : WFieldKind
  validators : List Validator
  description : String
  default : Value

/-- The default format list of `DateTimeFieldTweak.__init__`. -/
def dtDefaultFormats : List String := ["%Y-%m-%d %H:%M:%S", "%Y-%m-%d"]

/-- `ClickToWTF.handle_choice_type`: a `SelectField` whose choices are the
declared values, each rendered as `(n, n)`. -/
def handle_choice_type (opt : Opt) (choices : List String)
    (validators : List Validator) : WTFField :=
  { name := opt.name
    kind := .selectField (choices.map (fun n => (n, n)))
    validators := validators
    description := opt.help
    default := opt.default }

/-- `ClickToWTF.click_opt_to_wtf_field`: the priority-ordered mapping from
a click option to a WTForms field, raising `TypeError` (here: `.error`)
when no rule applies. -/
def click_opt_to_wtf_field (opt : Opt) : Except String WTFField :=
  let validators :=
    if opt.required then [Validator.dataRequired "* required field"] else []
  if opt.type = .int then
    .ok { name := opt.name, kind := .integerField, validators := validators
          description := opt.help, default := opt.default }
  else if opt.type = .string then
    .ok { name := opt.name
          kind := if opt.hide_input then .passwordField else .stringField
          validators := validators
          description := opt.help, default := opt.default }
  else if opt.type.isDateTimeLike then
    let formats := match opt.formats with
      | some fs => fs
      | none => dtDefaultFormats
    let dflt := if isCallable opt.default then callValue opt.default
      else opt.default
    (match dflt with
     | .vStr s =>
       (strptime_ymd_hms s).map (fun d =>
         { name := opt.name, kind := .dateTimeFieldTweak formats
           validators := validators
           description := opt.help, default := d })
     | d =>
       .ok { name := opt.name, kind := .dateTimeFieldTweak formats
             validators := validators
             description := opt.help, default := d })
  else if opt.type.isFileRead then
    .ok { name := opt.name, kind := .fileField, validators := validators
          description := opt.help, default := opt.default }
  else if opt.type.tname = "choice" then
    .ok (handle_choice_type opt
      (match opt.type with | .choice cs => cs | _ => []) validators)
  else
    .error ("Cannot represent click type " ++ opt.type.tstr ++ " in WTF")

/-! ## c2g.py: `GenericField` and `click_opt_to_field` -/

/-- The `type` argument stored on a `GenericField`. -/
inductive GType where
  | gStr
  | gInt
  | gBool
  | gDatetime
  deriving DecidableEq, Repr

/-- `c2g.GenericField`: name, validators, description, current data
(initialised to the default) and a stored type. -/
structure GenericField where
  name : String
  validators : List Validator
  description : String
  data : Value
  gtype : GType

/-- `ClickToGeneric.make_int_field`. -/
def make_int_field (opt : Opt) : GenericField :=
  { name := opt.name, validators := [], description := opt.help
    data := opt.default, gtype := .gInt }

/-- `ClickToGeneric.make_bool_field`. -/
def make_bool_field (opt : Opt) : GenericField :=
  { name := opt.name, validators := [], description := opt.help
    data := opt.default, gtype := .gBool }

/-- `ClickToGeneric.make_str_field` (the source passes `type=int` here). -/
def make_str_field (opt : Opt) : GenericField :=
  { name := opt.name, validators := [], description := opt.help
    data := opt.default, gtype := .gInt }

/-- `ClickToGeneric.make_dt_field`: a callable default is invoked once and
a string default is parsed with `strptime('%Y-%m-%d %H:%M:%S')`. -/
def make_dt_field (opt : Opt) : Except String GenericField :=
  let dflt := if isCallable opt.default then callValue opt.default
    else opt.default
  match dflt with
  | .vStr s =>
    (strptime_ymd_hms s).map (fun d =>
      { name := opt.name, validators := [], description := opt.help
        data := d, gtype := .gDatetime })
  | d =>
    .ok { name := opt.name, validators := [], description := opt.help
          data := d, gtype := .gDatetime }

/-- `ClickToGeneric.make_file_field` (no `type` argument, so the
`GenericField` default `type=str` applies). -/
def make_file_field (opt : Opt) : GenericField :=
  { name := opt.name, validators := [], description := opt.help
    data := opt.default, gtype := .gStr }

/-- `ClickToGeneric.click_opt_to_field`: the generic adapter's mapping
table, raising `TypeError` (here: `.error`) when no rule applies. -/
def click_opt_to_field (opt : Opt) : Except String GenericField :=
  if opt.type = .int then .ok (make_int_field opt)
  else if opt.type = .bool then .ok (make_bool_field opt)
  else if opt.type = .string then .ok (make_str_field opt)
  else if opt.type.isDateTimeLike then make_dt_field opt
  else if opt.type.isFileOrPath then
    .ok (make_file_field opt)
  else
    .error ("Cannot represent click type " ++ opt.type.tstr)

/-! ## The Tweak chain and the two adapters -/

/-- A Tweak interceptor.  `gobbles` models `tweak.gobble(cmd, name)`
returning a truthy reason; `pads` models the dict assignments its
`pad_kwargs(cmd, kwargs)` performs, in order; `postp` models
`post_process_result(cmd, result)`. -/
structure Tweak where
  gobbles : String → Bool
  pads : List (String × Value)
  postp : Value → Value

/-- The target callback of a click command; `wrapped` models the
`__wrapped__` attribute left by an instrumenting decorator. -/
structure Callback where
  run : Dict → Value
  wrapped : Option (Dict → Value)

/-- A click command as the adapters consume it. -/
structure Cmd where
  name : String
  help : String
  params : List Opt
  callback : Callback

/-- `ClickToWTF.gobble` / `ClickToGeneric.gobble` return the first truthy
reason over the tweak chain; as a predicate: some tweak claims `name`. -/
def gobbleAny (tweaks : List Tweak) (name : String) : Bool :=
  tweaks.any (fun t => t.gobbles name)

/-- `pad_kwargs`: each tweak's inject step runs in configured order,
applying that tweak's assignments to the kwargs dict. -/
def pad_kwargs : List Tweak → Dict → Dict
  | [], kwargs => kwargs
  | t :: rest, kwargs => pad_kwargs rest (apply_assignments t.pads kwargs)

/-- The net effect of the whole chain's inject steps on one key: the last
assignment to it by any tweak, if any. -/
def tweaks_last_pad : List Tweak → String → Option Value
  | [], _ => none
  | t :: rest, k =>
    match tweaks_last_pad rest k with
    | some v => some v
    | none => last_assign t.pads k

/-- `post_process`: thread the result through each tweak's transform. -/
def post_process (tweaks : List Tweak) (raw_result : Value) : Value :=
  tweaks.foldl (fun r t => t.postp r) raw_result

/-- Invoke the command's callback: the innermost original if the callback
is an instrumented wrapper, the callback itself otherwise. -/
def call_callback (cb : Callback) (kwargs : Dict) : Value :=
  match cb.wrapped with
  | some inner => inner kwargs
  | none => cb.run kwargs

/-- `c2f.ClickToWTF` configuration state. -/
structure ClickToWTF where
  clickCmd : Cmd
  skip_opt_re : Option (String → Bool)
  tweaks : List Tweak

/-- Whether the compiled skip pattern matches (`skip_opt_re.search`);
a falsy pattern never skips. -/
def ClickToWTF.skipMatch (c : ClickToWTF) (name : String) : Bool :=
  match c.skip_opt_re with
  | some re => re name
  | none => false

/-- `ClickToWTF.click_cmd_params`: declared options minus those matching
the skip pattern and those claimed by the tweak chain's gobble step. -/
def ClickToWTF.click_cmd_params (c : ClickToWTF) : List Opt :=
  c.clickCmd.params.filter
    (fun opt => !c.skipMatch opt.name && !gobbleAny c.tweaks opt.name)

/-- The field-building loop of `ClickToWTF.form_cls`: one `setattr` per
surviving option, in declared order; an unsupported option type raises. -/
def build_wtf_fields : List Opt → Except String (List WTFField)
  | [] => .ok []
  | opt :: rest =>
    (click_opt_to_wtf_field opt).bind (fun field =>
      (build_wtf_fields rest).map (fun fields => field :: fields))

/-- `ClickToWTF.form_cls`: one WTForms field per surviving option, in
declared order; fails if any option's type is unsupported. -/
def ClickToWTF.form_cls (c : ClickToWTF) : Except String (List WTFField) :=
  build_wtf_fields c.click_cmd_params

/-- The collection loop of `ClickToWTF.process`: for each surviving option
read `getattr(form, opt.name).data` and store it, accumulating a list for
`multiple` options (`[*kwargs.get(opt.name, []), value]`). -/
def wtf_collect (formData : String → Value) :
    List Opt → Dict → Except String Dict
  | [], kwargs => .ok kwargs
  | opt :: rest, kwargs =>
    let value := formData opt.name
    if opt.multiple then
      match dget kwargs opt.name with
      | none =>
        wtf_collect formData rest (dset kwargs opt.name (.vList [value]))
      | some (.vList vs) =>
        wtf_collect formData rest
          (dset kwargs opt.name (.vList (vs ++ [value])))
      | some _ => .error "TypeError: argument after * is not iterable"
    else
      wtf_collect formData rest (dset kwargs opt.name value)

/-- `defaults = {opt.name: opt.default for opt in self.clickCmd.params}`. -/
def defaults_dict (cmd : Cmd) : Dict :=
  apply_assignments (cmd.params.map (fun o => (o.name, o.default))) []

/-- The kwargs of `ClickToWTF.process` after `kwargs = {**defaults,
**kwargs}`, before any tweak's inject step runs. -/
def ClickToWTF.assembled (c : ClickToWTF) (formData : String → Value) :
    Except String Dict :=
  (wtf_collect formData c.click_cmd_params []).map
    (fun kwargs => apply_assignments kwargs (defaults_dict c.clickCmd))

/-- The kwargs `ClickToWTF.process` passes to the callback: the assembled
dict after `self.pad_kwargs(kwargs)`. -/
def ClickToWTF.process_kwargs (c : ClickToWTF) (formData : String → Value) :
    Except String Dict :=
  (c.assembled formData).map (pad_kwargs c.tweaks)

/-- `ClickToWTF.process`: assemble kwargs, inject, call the (unwrapped)
callback, post-process the result through the tweak chain. -/
def ClickToWTF.process (c : ClickToWTF) (formData : String → Value) :
    Except String Value :=
  (c.process_kwargs formData).map
    (fun kwargs =>
      post_process c.tweaks (call_callback c.clickCmd.callback kwargs))

/-- `c2g.ClickToGeneric` configuration state. -/
structure ClickToGeneric where
  click_cmd : Cmd
  skip_opt_re : Option (String → Bool)
  tweaks : List Tweak

/-- Skip-pattern match for the generic adapter. -/
def ClickToGeneric.skipMatch (c : ClickToGeneric) (name : String) : Bool :=
  match c.skip_opt_re with
  | some re => re name
  | none => false

/-- Membership in `self.gobbled_opts` after `form_cls` ran: the loop
records a claim for every declared option that is not skipped and that
some tweak gobbles. -/
def ClickToGeneric.gobbled (c : ClickToGeneric) (name : String) : Bool :=
  !c.skipMatch name && gobbleAny c.tweaks name

/-- The field-building loop of `ClickToGeneric.form_cls`: one attribute
per non-skipped, non-gobbled option, in declared order. -/
def gen_build_fields (c : ClickToGeneric) :
    List Opt → Except String (List (String × GenericField))
  | [] => .ok []
  | opt :: rest =>
    if c.skipMatch opt.name then gen_build_fields c rest
    else if gobbleAny c.tweaks opt.name then gen_build_fields c rest
    else
      (click_opt_to_field opt).bind (fun field =>
        (gen_build_fields c rest).map
          (fun fields => (opt.name, field) :: fields))

/-- `ClickToGeneric.form_cls`: set one `GenericField` attribute per
non-skipped, non-gobbled option, in declared order. -/
def ClickToGeneric.form_fields (c : ClickToGeneric) :
    Except String (List (String × GenericField)) :=
  gen_build_fields c c.click_cmd.params

/-- `getattr(form, name)` over the built field attributes. -/
def form_getattr (fields : List (String × GenericField)) (name : String) :
    Option GenericField :=
  (fields.find? (fun p => p.1 == name)).map Prod.snd

/-- `ClickToGeneric.form(opts)`: instantiate the form, then overwrite
`field.data` for every supplied non-`None` option value; a supplied name
with no field raises `AttributeError` (here: `.error`). -/
def ClickToGeneric.form (c : ClickToGeneric) (opts : List (String × Value)) :
    Except String (List (String × GenericField)) :=
  c.form_fields >>= fun fields =>
    opts.foldlM
      (fun (acc : List (String × GenericField)) pair =>
        match pair.2 with
        | .vNone => .ok acc
        | v =>
          match form_getattr acc pair.1 with
          | none => .error ("AttributeError: " ++ pair.1)
          | some field =>
            .ok (acc.map (fun p =>
              if p.1 == pair.1 then (p.1, { field with data := v }) else p)))
      fields

/-- The collection loop of `ClickToGeneric.process`: every declared option
except gobbled ones is read from the form (`getattr(form, opt.name).data`,
raising `AttributeError` when the form has no such field), with the
`multiple` accumulation (`cur = kwargs.get(opt.name, []); cur.append`). -/
def gen_collect (c : ClickToGeneric)
    (form : List (String × GenericField)) :
    List Opt → Dict → Except String Dict
  | [], kwargs => .ok kwargs
  | opt :: rest, kwargs =>
    if c.gobbled opt.name then gen_collect c form rest kwargs
    else
      match form_getattr form opt.name with
      | none => .error ("AttributeError: " ++ opt.name)
      | some field =>
        let value := field.data
        if opt.multiple then
          match dget kwargs opt.name with
          | none =>
            gen_collect c form rest (dset kwargs opt.name (.vList [value]))
          | some (.vList vs) =>
            gen_collect c form rest
              (dset kwargs opt.name (.vList (vs ++ [value])))
          | some _ => .error "AttributeError: append"
        else
          gen_collect c form rest (dset kwargs opt.name value)

/-- The kwargs `ClickToGeneric.process` passes to the callback; unlike the
form adapter there is no `{**defaults, **kwargs}` merge. -/
def ClickToGeneric.process_kwargs (c : ClickToGeneric)
    (form : List (String × GenericField)) : Except String Dict :=
  (gen_collect c form c.click_cmd.params []).map (pad_kwargs c.tweaks)

/-- `ClickToGeneric.process`. -/
def ClickToGeneric.process (c : ClickToGeneric)
    (form : List (String × GenericField)) : Except String Value :=
  (c.process_kwargs form).map
    (fun kwargs =>
      post_process c.tweaks (call_callback c.click_cmd.callback kwargs))

/-- `ClickToGeneric.handle_request(opts)`: build the form from the value
mapping and process it. -/
def ClickToGeneric.handle_request (c : ClickToGeneric)
    (opts : List (String × Value)) : Except String Value :=
  c.form opts >>= c.process

/-! ## DateTimeFieldTweak submission processing -/

/-- The observable state of a `DateTimeFieldTweak` after WTForms calls
`process_formdata`: the field's `data` and the `ValueError`s the form
library collected from it (`process_errors`). -/
structure DTFieldState where
  data : Value
  process_errors : List String

/-- `DateTimeFieldTweak.process_formdata(valuelist)`: on a non-empty
joined string, first store the raw string in `self.data` (so
`DataRequired` is satisfied), then replace it with the parsed date; a
`ParserError` is re-raised as `ValueError(str(err))`, which the form
library records.  `parse` abstracts `dateutil.parser.parse`; `init` is the
field's data before processing. -/
def dt_process_formdata (parse : String → Except String Value)
    (valuelist : List String) (init : Value) : DTFieldState :=
  match valuelist with
  | [] => { data := init, process_errors := [] }
  | _ =>
    let date_str := String.intercalate " " valuelist
    if date_str = "" then { data := init, process_errors := [] }
    else
      match parse date_str with
      | .ok d => { data := d, process_errors := [] }
      | .error err => { data := .vStr date_str, process_errors := [err] }

/-- The errors WTForms reports for the field after validation: the
recorded process errors, plus the `DataRequired` message when the field is
required and its data is falsy. -/
def dt_field_errors (parse : String → Except String Value)
    (valuelist : List String) (init : Value) (required : Bool) :
    List String :=
  let st := dt_process_formdata parse valuelist init
  st.process_errors ++
    (if required && falsy st.data then ["* required field"] else [])

/-! ## WTForms submitted-data model

The form library is an external collaborator; we model the one behaviour
the pipeline relies on: a field's `data` after a POST is the first value
submitted under the field's name (plain text semantics), or the compiled
default when the name was not submitted. -/

/-- The submitted values under one name, in submission order
(`formdata.getlist(name)`). -/
def submitted_valuelist (submitted : List (String × String))
    (name : String) : List String :=
  submitted.filterMap (fun p => if p.1 == name then some p.2 else none)

/-- A field's `data` after processing a submission. -/
def wtf_field_data (submitted : List (String × String))
    (field : WTFField) : Value :=
  match submitted_valuelist submitted field.name with
  | [] => field.default
  | v :: _ => .vStr v

/-- `getattr(form, name).data` over a built field list. -/
def wtf_form_data (fields : List WTFField)
    (submitted : List (String × String)) (name : String) : Value :=
  match fields.find? (fun f => f.name == name) with
  | some field => wtf_field_data submitted field
  | none => .vNone

/-- The `DataRequired` failures of a submitted form: one per field that
carries the validator and whose data is falsy. -/
def required_errors (fields : List WTFField)
    (formData : String → Value) : List (String × String) :=
  fields.filterMap (fun f =>
    if f.validators.any (fun v => match v with
        | .dataRequired _ => true) && falsy (formData f.name) then
      some (f.name, "* required field")
    else none)

/-! ## decorators.py: the `watched` decorator -/

/-- The structured log records `watched.outer_wrapper` emits, in order:
the start record, an optional stringification-failure error log, and the
end/ok or end/error record. -/
inductive WatchRecord where
  | start (name : String)
  | endOk (name : String) (result : String)
  | endError (name : String) (error : String)
  | strFailure (message : String)
  deriving DecidableEq, Repr

/-- The truncation applied to the stringified result: over 200 characters
becomes the first 195 plus an ellipsis marker. -/
def truncate_result (s : String) : String :=
  if s.length > 200 then (s.take 195).append "..." else s

/-- `watched.outer_wrapper`: emit the start record, run the wrapped
callable, stringify the result (failures caught and logged, leaving the
`'(unknown)'` placeholder), emit end/ok and return the result unchanged;
on an exception emit end/error with the stringified exception and
re-raise.  `wrapped` models the callable (an exception is `.error`);
`str_of` models `str(result)`, which may itself raise. -/
def watched_call (name : String) (wrapped : Unit → Except String Value)
    (str_of : Value → Except String String) :
    List WatchRecord × Except String Value :=
  match wrapped () with
  | .ok result =>
    (match str_of result with
     | .ok s =>
       ([.start name, .endOk name (truncate_result s)], .ok result)
     | .error e =>
       ([.start name, .strFailure e, .endOk name "(unknown)"], .ok result))
  | .error problem =>
    ([.start name, .endError name problem], .error problem)

/-! ## decorators.py: `LockFile` -/

/-- A file system restricted to what `LockFile` touches: a map from paths
to file contents. -/
abbrev FileSys := List (String × String)

/-- `os.path.exists`. -/
def fsExists (fs : FileSys) (path : String) : Bool :=
  fs.any (fun p => p.1 == path)

/-- Create or overwrite a file. -/
def fsWrite (fs : FileSys) (path content : String) : FileSys :=
  if fs.any (fun p => p.1 == path) then
    fs.map (fun p => if p.1 == path then (path, content) else p)
  else fs ++ [(path, content)]

/-- `os.remove`. -/
def fsRemove (fs : FileSys) (path : String) : FileSys :=
  fs.filter (fun p => p.1 != path)

/-- The marker contents `LockFile.__enter__` writes: pid, thread id,
comment and creation timestamps. -/
def lock_marker (pid thread_id : Nat) (comment created : String) : String :=
  "pid=" ++ toString pid ++ "; thread_id=" ++ toString thread_id ++
    "; comment=" ++ comment ++ "; created=" ++ created

/-- `LockFile.__enter__`: if the marker exists, fail with
`FileExistsError(self.lockpath)` (after a best-effort read and log of its
contents, which does not change the outcome); otherwise create the marker
and succeed. -/
def lockfile_enter (fs : FileSys) (lockpath content : String) :
    Except String FileSys :=
  if fsExists fs lockpath then .error ("FileExistsError: " ++ lockpath)
  else .ok (fsWrite fs lockpath content)

/-- `LockFile.remove_lock`: delete the marker only if it exists, so a
missing marker never raises. -/
def remove_lock (fs : FileSys) (lockpath : String) : FileSys :=
  if fsExists fs lockpath then fsRemove fs lockpath else fs

/-- `LockFile.__exit__`: always remove the lock; returning `False` in the
source means any exception from the body keeps propagating. -/
def lockfile_exit (fs : FileSys) (lockpath : String) : FileSys :=
  remove_lock fs lockpath

/-- The scoped use of `LockFile` as a context manager: acquire, run the
body (which may update the file system and may raise), then release on
every exit path, re-propagating the body's exception. -/
def with_lockfile (fs : FileSys) (lockpath content : String)
    (body : FileSys → FileSys × Except String Value) :
    FileSys × Except String Value :=
  match lockfile_enter fs lockpath content with
  | .error e => (fs, .error e)
  | .ok fs1 =>
    let step := body fs1
    (lockfile_exit step.1 lockpath, step.2)

/-! ## server_tools.py: `run_cmd` -/

/-- What the spawned process does: exits at a given time with a given
code, or is still running past every timeout used. -/
structure ProcBehaviour where
  exits : Option (Nat × Int)

/-- How `run_cmd` ends: the timeout re-raised, or the `ValueError` on a
non-zero exit code. -/
inductive RunErr where
  | timeoutExpired
  | errorCode (message : String)
  deriving DecidableEq, Repr

/-- `proc.wait(timeout=t)`: the exit code if the process exits within `t`
seconds, otherwise `TimeoutExpired`. -/
def proc_wait (p : ProcBehaviour) (t : Nat) : Except Unit Int :=
  match p.exits with
  | some e => if e.1 ≤ t then .ok e.2 else .error ()
  | none => .error ()

/-- `proc.returncode` while the process may still be running: `None`
(modelled `none`) unless it has already exited — after a `TimeoutExpired`
from `wait` the process is still running, and right after `Popen` it has
not exited yet. -/
def proc_returncode_running : Option Int := none

/-- `run_cmd(cmd, timeout=...)`: wait up to `abs(timeout)`; on timeout a
negative `timeout` accepts the still-running process (its `returncode` is
`None`) while a positive one re-raises; then any truthy result (a non-zero
exit code) raises `ValueError` naming the code and the command. -/
def runCmd (cmd : String) (timeout : Option Int) (p : ProcBehaviour) :
    Except RunErr Unit :=
  let result : Except RunErr (Option Int) :=
    match timeout with
    | some t =>
      (match proc_wait p t.natAbs with
       | .ok code => .ok (some code)
       | .error _ =>
         if t < 0 then .ok proc_returncode_running
         else .error .timeoutExpired)
    | none => .ok proc_returncode_running
  result.bind (fun r =>
    match r with
    | some code =>
      if code ≠ 0 then
        .error (.errorCode ("Error code " ++ toString code ++ " in cmd " ++
          cmd))
      else .ok ()
    | none => .ok ())

/-- A concrete write-mode file option (as `click.File('w')` would give). -/
def wfileOpt : Opt :=
  { name := "datafile", type := .file "w", default := .vNone,
    required := false, multiple := false, hide_input := false,
    help := "output file", formats := none }

/-- A concrete choice option (as in the repository's test app). -/
def choiceOpt : Opt :=
  { name := "color", type := .choice ["red", "green", "blue"],
    default := .vStr "green", required := false, multiple := false,
    hide_input := false, help := "Favorite color.", formats := none }

/-- The tweak of the test app's file-download scenario: it gobbles the
(required) `datafile` option and injects a buffer for it. -/
def c2tweak : Tweak :=
  { gobbles := fun n => n == "datafile"
    pads := [("datafile", .vStr "<buffer>")]
    postp := fun r => r }

/-- The `datafile` option, marked required. -/
def datafileOpt : Opt :=
  { name := "datafile", type := .file "rb", default := .vNone,
    required := true, multiple := false, hide_input := false,
    help := "Data file to read.", formats := none }

/-- A plain `count` option. -/
def countOpt : Opt :=
  { name := "count", type := .int, default := .vInt 1, required := false,
    multiple := false, hide_input := false,
    help := "how many times to say it", formats := none }

/-- The command used by the C2 witness. -/
def c2cmd : Cmd :=
  { name := "count_file_size", help := "Count size of file."
    params := [datafileOpt, countOpt]
    callback := { run := fun _ => .vNone, wrapped := none } }

/-- The form adapter of the C2 witness. -/
def c2wtf : ClickToWTF :=
  { clickCmd := c2cmd, skip_opt_re := none, tweaks := [c2tweak] }

/-- The generic adapter of the C2 witness. -/
def c2gen : ClickToGeneric :=
  { click_cmd := c2cmd, skip_opt_re := none, tweaks := [c2tweak] }

/-- The single field both field sets reduce to for `c2cmd`. -/
def c2countField : WTFField :=
  { name := "count", kind := .integerField, validators := []
    description := "how many times to say it", default := .vInt 1 }

/-- The tweak of the C1 witness: gobbles `secret`, injects `"injected"`. -/
def c1tweak : Tweak :=
  { gobbles := fun n => n == "secret"
    pads := [("secret", .vStr "injected")]
    postp := fun r => r }

/-- A hidden string option named `secret` with default `"default"`. -/
def secretOpt : Opt :=
  { name := "secret", type := .string, default := .vStr "default",
    required := false, multiple := false, hide_input := true,
    help := "", formats := none }

/-- The command of the C1 witness. -/
def c1cmd : Cmd :=
  { name := "cmd", help := "", params := [secretOpt]
    callback := { run := fun _ => .vNone, wrapped := none } }

/-- The form adapter of the C1 witness. -/
def c1wtf : ClickToWTF :=
  { clickCmd := c1cmd, skip_opt_re := none, tweaks := [c1tweak] }

/-- The generic adapter of the C1 witness. -/
def c1gen : ClickToGeneric :=
  { click_cmd := c1cmd, skip_opt_re := none, tweaks := [c1tweak] }

/-- A plain `text` option. -/
def textOpt : Opt :=
  { name := "text", type := .string, default := .vStr "hi",
    required := false, multiple := false, hide_input := false,
    help := "what to say", formats := none }

/-- The command of the C10 witness: a normal option, an option to skip and
an option to gobble. -/
def c10cmd : Cmd :=
  { name := "hello", help := "say hello"
    params := [countOpt, textOpt, datafileOpt]
    callback := { run := fun _ => .vNone, wrapped := none } }

/-- The form adapter of the C10 witness: skips `count`, gobbles
`datafile`. -/
def c10wtf : ClickToWTF :=
  { clickCmd := c10cmd, skip_opt_re := some (fun n => n == "count")
    tweaks := [c2tweak] }

/-- A bool `flag` option with a truthy default. -/
def boolFlagOpt : Opt :=
  { name := "flag", type := .bool, default := .vBool true,
    required := false, multiple := false, hide_input := false,
    help := "", formats := none }

/-- The command of the C5 counterexample. -/
def c5cmd : Cmd :=
  { name := "c5", help := ""
    params := [countOpt, boolFlagOpt]
    callback :=
      { run := fun kw =>
          match dget kw "flag" with
          | some v => v
          | none => .vNone
        wrapped := none } }

/-- The generic adapter of the C5 counterexample: its skip pattern
excludes `flag` from the field set. -/
def c5gen : ClickToGeneric :=
  { click_cmd := c5cmd, skip_opt_re := some (fun n => n == "flag")
    tweaks := [] }

/-- The `multiple` option of the test app's goodbye command. -/
def alsoOpt : Opt :=
  { name := "also", type := .string, default := .vStr "them",
    required := false, multiple := true, hide_input := false,
    help := "Also say...", formats := none }

/-- The command of the C6 counterexample. -/
def c6cmd : Cmd :=
  { name := "goodbye", help := "say bye", params := [alsoOpt]
    callback := { run := fun _ => .vNone, wrapped := none } }

/-- The form adapter of the C6 counterexample. -/
def c6wtf : ClickToWTF :=
  { clickCmd := c6cmd, skip_opt_re := none, tweaks := [] }

/-- Submitting the `also` field three times, in order `a`, `b`, `c`. -/
def c6submitted : List (String × String) :=
  [("also", "a"), ("also", "b"), ("also", "c")]

/-- The form data seen through the built field set for that submission. -/
def c6formData (n : String) : Value :=
  match c6wtf.form_cls with
  | .ok fields => wtf_form_data fields c6submitted n
  | .error _ => .vNone

/-- The value kwargs hold under a key, when processing succeeded. -/
def kwargs_value (r : Except String Dict) (k : String) : Option Value :=
  match r with
  | .ok kw => dget kw k
  | .error _ => none

/-! ## Theorems -/

theorem dget_dset_self (d : Dict) (k : String) (v : Value) :
    dget (dset d k v) k = some v := by
  induction d with
  | nil => simp [dset, dget]
  | cons p rest ih =>
    by_cases h : p.1 = k
    · simp [dset, h, dget]
    · have hb : (p.1 == k) = false := by simp [h]
      simp [dset, hb, dget, ih]

theorem dget_dset_ne (d : Dict) (k k' : String) (v : Value) (h : k ≠ k') :
    dget (dset d k v) k' = dget d k' := by
  have hkk : (k == k') = false := by simp [h]
  induction d with
  | nil => simp [dset, dget, hkk]
  | cons p rest ih =>
    by_cases hp : p.1 = k
    · have hb : (p.1 == k) = true := by simp [hp]
      have hp' : (p.1 == k') = false := by simp [hp, h]
      simp [dset, hb, dget, hkk, hp']
    · have hb : (p.1 == k) = false := by simp [hp]
      simp [dset, hb, dget, ih]

/-- Lookup after a run of assignments: the last assignment to `k` wins,
otherwise the original binding survives. -/
theorem dget_apply_assignments (ps : List (String × Value)) (d : Dict)
    (k : String) :
    dget (apply_assignments ps d) k =
      match last_assign ps k with
      | some v => some v
      | none => dget d k := by
  induction ps generalizing d with
  | nil => simp [apply_assignments, last_assign]
  | cons p ps ih =>
    simp only [apply_assignments, last_assign]
    rw [ih]
    cases hps : last_assign ps k with
    | some v => simp
    | none =>
      by_cases hk : p.1 = k
      · subst hk
        simp [dget_dset_self]
      · have hb : (p.1 == k) = false := by simp [hk]
        simp [hb, dget_dset_ne _ _ _ _ hk]

theorem last_assign_eq_none_of_not_mem (ps : List (String × Value))
    (k : String) (h : k ∉ ps.map Prod.fst) : last_assign ps k = none := by
  induction ps with
  | nil => rfl
  | cons p rest ih =>
    simp only [List.map_cons, List.mem_cons] at h
    push_neg at h
    have hb : (p.1 == k) = false := by
      simp only [beq_eq_false_iff_ne]
      exact Ne.symm h.1
    simp [last_assign, ih h.2, hb]

theorem dget_eq_none_of_not_mem (d : Dict) (k : String)
    (h : k ∉ dkeys d) : dget d k = none := by
  induction d with
  | nil => rfl
  | cons p rest ih =>
    simp only [dkeys, List.map_cons, List.mem_cons] at h
    push_neg at h
    have hb : (p.1 == k) = false := by
      simp only [beq_eq_false_iff_ne]
      exact Ne.symm h.1
    simp only [dget, hb, if_false]
    exact ih h.2

/-- Dicts in the source are duplicate-free; under that invariant the last
assignment recorded in the list is just the stored binding. -/
theorem last_assign_eq_dget_of_nodup (d : Dict)
    (h : (dkeys d).Nodup) (k : String) :
    last_assign d k = dget d k := by
  induction d with
  | nil => rfl
  | cons p rest ih =>
    simp only [dkeys, List.map_cons, List.nodup_cons] at h
    by_cases hk : p.1 = k
    · subst hk
      have hnone : last_assign rest p.1 = none :=
        last_assign_eq_none_of_not_mem rest p.1 h.1
      simp [last_assign, hnone, dget]
    · have hb : (p.1 == k) = false := by simp [hk]
      have ihr := ih h.2
      simp only [last_assign, ihr, dget, hb, if_false]
      cases dget rest k <;> simp

theorem dkeys_dset (d : Dict) (k : String) (v : Value) :
    dkeys (dset d k v) = if k ∈ dkeys d then dkeys d else dkeys d ++ [k] := by
  induction d with
  | nil => simp [dset, dkeys]
  | cons p rest ih =>
    by_cases hp : p.1 = k
    · simp [dset, hp, dkeys]
    · have hb : (p.1 == k) = false := by simp [hp]
      have hne : ¬ k = p.1 := fun hh => hp hh.symm
      simp only [dkeys] at ih
      simp only [dset, hb, Bool.false_eq_true, if_false, dkeys, List.map_cons]
      rw [ih]
      by_cases hm : k ∈ List.map Prod.fst rest
      · simp [hm, hne]
      · simp [hm, hne]

theorem nodup_dkeys_dset (d : Dict) (k : String) (v : Value)
    (h : (dkeys d).Nodup) : (dkeys (dset d k v)).Nodup := by
  rw [dkeys_dset]
  by_cases hm : k ∈ dkeys d
  · simpa [hm]
  · simp only [hm, if_false]
    simpa [List.nodup_append] using ⟨h, hm⟩

theorem dget_pad_kwargs (tweaks : List Tweak) (d : Dict) (k : String) :
    dget (pad_kwargs tweaks d) k =
      match tweaks_last_pad tweaks k with
      | some v => some v
      | none => dget d k := by
  induction tweaks generalizing d with
  | nil => simp [pad_kwargs, tweaks_last_pad]
  | cons t rest ih =>
    simp only [pad_kwargs, tweaks_last_pad]
    rw [ih, dget_apply_assignments]
    cases tweaks_last_pad rest k <;> simp

/-! ## Helper lemmas about the embedded operations -/

theorem except_map_ok {α β : Type} {f : α → β} {e : Except String α}
    {b : β} (h : Except.map f e = .ok b) : ∃ a, e = .ok a ∧ b = f a := by
  cases e with
  | ok a => exact ⟨a, rfl, by simpa [Except.map] using h.symm⟩
  | error msg => simp [Except.map] at h

theorem click_opt_to_wtf_field_name (opt : Opt) (f : WTFField)
    (h : click_opt_to_wtf_field opt = .ok f) : f.name = opt.name := by
  simp only [click_opt_to_wtf_field] at h
  split at h
  · injection h with h; subst h; rfl
  · split at h
    · injection h with h; subst h; rfl
    · split at h
      · split at h
        · obtain ⟨d, _, hb⟩ := except_map_ok h
          subst hb; rfl
        · injection h with h; subst h; rfl
      · split at h
        · injection h with h; subst h; rfl
        · split at h
          · injection h with h; subst h; rfl
          · cases h

theorem build_wtf_fields_names (opts : List Opt) (fs : List WTFField)
    (h : build_wtf_fields opts = .ok fs) :
    ∀ f ∈ fs, ∃ opt ∈ opts, f.name = opt.name := by
  induction opts generalizing fs with
  | nil =>
    simp only [build_wtf_fields] at h
    injection h with h; subst h
    intro f hf; cases hf
  | cons opt rest ih =>
    simp only [build_wtf_fields] at h
    cases h1 : click_opt_to_wtf_field opt with
    | error e => rw [h1] at h; cases h
    | ok f0 =>
      rw [h1] at h
      simp only [Except.bind] at h
      cases h2 : build_wtf_fields rest with
      | error e => rw [h2] at h; cases h
      | ok fs0 =>
        rw [h2] at h
        simp only [Except.map] at h
        injection h with h; subst h
        intro f hf
        rcases List.mem_cons.mp hf with hf | hf
        · subst hf
          exact ⟨opt, List.mem_cons_self _ _,
            click_opt_to_wtf_field_name opt f h1⟩
        · obtain ⟨o, ho, hn⟩ := ih fs0 h2 f hf
          exact ⟨o, List.mem_cons_of_mem _ ho, hn⟩

theorem click_cmd_params_not_gobbled (c : ClickToWTF) (X : String)
    (hg : gobbleAny c.tweaks X = true) :
    ∀ opt ∈ c.click_cmd_params, opt.name ≠ X := by
  intro opt hm he
  have := List.of_mem_filter hm
  rw [he, hg] at this
  simp at this

theorem required_errors_mem (fields : List WTFField)
    (formData : String → Value) (X m : String)
    (h : (X, m) ∈ required_errors fields formData) :
    ∃ f ∈ fields, f.name = X := by
  simp only [required_errors, List.mem_filterMap] at h
  obtain ⟨f, hf, hcond⟩ := h
  refine ⟨f, hf, ?_⟩
  by_cases hc : (f.validators.any (fun v => match v with
      | .dataRequired _ => true) && falsy (formData f.name)) = true
  · rw [if_pos hc] at hcond
    injection hcond with h1
    exact congrArg Prod.fst h1
  · rw [if_neg hc] at hcond
    cases hcond

theorem gen_build_fields_keys (c : ClickToGeneric) (opts : List Opt)
    (gfs : List (String × GenericField))
    (h : gen_build_fields c opts = .ok gfs) :
    ∀ p ∈ gfs, ∃ opt ∈ opts,
      p.1 = opt.name ∧ gobbleAny c.tweaks opt.name = false := by
  induction opts generalizing gfs with
  | nil =>
    simp only [gen_build_fields] at h
    injection h with h; subst h
    intro p hp; cases hp
  | cons opt rest ih =>
    simp only [gen_build_fields] at h
    by_cases hs : c.skipMatch opt.name = true
    · rw [if_pos hs] at h
      intro p hp
      obtain ⟨o, ho, hrest⟩ := ih gfs h p hp
      exact ⟨o, List.mem_cons_of_mem _ ho, hrest⟩
    · rw [if_neg hs] at h
      by_cases hgb : gobbleAny c.tweaks opt.name = true
      · rw [if_pos hgb] at h
        intro p hp
        obtain ⟨o, ho, hrest⟩ := ih gfs h p hp
        exact ⟨o, List.mem_cons_of_mem _ ho, hrest⟩
      · rw [if_neg hgb] at h
        cases h1 : click_opt_to_field opt with
        | error e => rw [h1] at h; cases h
        | ok f0 =>
          rw [h1] at h
          simp only [Except.bind] at h
          cases h2 : gen_build_fields c rest with
          | error e => rw [h2] at h; cases h
          | ok fs0 =>
            rw [h2] at h
            simp only [Except.map] at h
            injection h with h; subst h
            intro p hp
            rcases List.mem_cons.mp hp with hp | hp
            · subst hp
              exact ⟨opt, List.mem_cons_self _ _, rfl,
                Bool.eq_false_iff.mpr hgb⟩
            · obtain ⟨o, ho, hrest⟩ := ih fs0 h2 p hp
              exact ⟨o, List.mem_cons_of_mem _ ho, hrest⟩

theorem last_assign_defaults (params : List Opt) (opt : Opt)
    (hm : opt ∈ params) (hn : (params.map Opt.name).Nodup) :
    last_assign (params.map (fun o => (o.name, o.default))) opt.name =
      some opt.default := by
  induction params with
  | nil => cases hm
  | cons o rest ih =>
    simp only [List.map_cons, List.nodup_cons] at hn
    rcases List.mem_cons.mp hm with he | hmr
    · subst he
      have hnone :
          last_assign (rest.map (fun o => (o.name, o.default))) opt.name =
            none := by
        apply last_assign_eq_none_of_not_mem
        simpa using hn.1
      simp [last_assign, hnone]
    · have := ih hmr hn.2
      simp [last_assign, this]

theorem dget_defaults_dict (cmd : Cmd) (opt : Opt) (hm : opt ∈ cmd.params)
    (hn : (cmd.params.map Opt.name).Nodup) :
    dget (defaults_dict cmd) opt.name = some opt.default := by
  unfold defaults_dict
  rw [dget_apply_assignments]
  rw [last_assign_defaults cmd.params opt hm hn]

theorem wtf_collect_pres (formData : String → Value) (opts : List Opt)
    (k : String) (hk : ∀ opt ∈ opts, opt.name ≠ k) :
    ∀ kw0 kw, wtf_collect formData opts kw0 = .ok kw →
      dget kw k = dget kw0 k := by
  induction opts with
  | nil =>
    intro kw0 kw h
    simp only [wtf_collect] at h
    injection h with h; subst h; rfl
  | cons opt rest ih =>
    intro kw0 kw h
    have hne : opt.name ≠ k := hk opt (List.mem_cons_self _ _)
    have hkr : ∀ o ∈ rest, o.name ≠ k :=
      fun o ho => hk o (List.mem_cons_of_mem _ ho)
    simp only [wtf_collect] at h
    by_cases hmul : opt.multiple = true
    · rw [if_pos hmul] at h
      cases hcur : dget kw0 opt.name with
      | none =>
        rw [hcur] at h
        rw [ih hkr _ _ h, dget_dset_ne _ _ _ _ hne]
      | some v =>
        rw [hcur] at h
        cases v with
        | vList vs => rw [ih hkr _ _ h, dget_dset_ne _ _ _ _ hne]
        | vNone => cases h
        | vBool b => cases h
        | vInt n => cases h
        | vStr s => cases h
        | vDate y mo d hh mi se => cases h
        | vThunk r => cases h
    · rw [if_neg hmul] at h
      rw [ih hkr _ _ h, dget_dset_ne _ _ _ _ hne]

theorem wtf_collect_isSome (formData : String → Value) (opts : List Opt)
    (k : String) :
    ∀ kw0 kw, wtf_collect formData opts kw0 = .ok kw →
      ((dget kw0 k).isSome ∨ ∃ opt ∈ opts, opt.name = k) →
      (dget kw k).isSome := by
  induction opts with
  | nil =>
    intro kw0 kw h hsrc
    simp only [wtf_collect] at h
    injection h with h; subst h
    rcases hsrc with hs | ⟨opt, hm, _⟩
    · exact hs
    · cases hm
  | cons opt rest ih =>
    intro kw0 kw h hsrc
    simp only [wtf_collect] at h
    have push : ∀ (v : Value),
        (dget (dset kw0 opt.name v) k).isSome ∨ ∃ o ∈ rest, o.name = k := by
      intro v
      by_cases he : opt.name = k
      · left; subst he; rw [dget_dset_self]; rfl
      · rcases hsrc with hp | ⟨o, ho, hok⟩
        · left; rw [dget_dset_ne _ _ _ _ he]; exact hp
        · rcases List.mem_cons.mp ho with heq | hor
          · subst heq; exact absurd hok he
          · right; exact ⟨o, hor, hok⟩
    by_cases hmul : opt.multiple = true
    · rw [if_pos hmul] at h
      cases hcur : dget kw0 opt.name with
      | none =>
        rw [hcur] at h
        exact ih _ kw h (push _)
      | some v =>
        rw [hcur] at h
        cases v with
        | vList vs => exact ih _ kw h (push _)
        | vNone => cases h
        | vBool b => cases h
        | vInt n => cases h
        | vStr s => cases h
        | vDate y mo d hh mi se => cases h
        | vThunk r => cases h
    · rw [if_neg hmul] at h
      exact ih _ kw h (push _)

theorem wtf_collect_nodup_keys (formData : String → Value)
    (opts : List Opt) :
    ∀ kw0 kw, wtf_collect formData opts kw0 = .ok kw →
      (dkeys kw0).Nodup → (dkeys kw).Nodup := by
  induction opts with
  | nil =>
    intro kw0 kw h hn
    simp only [wtf_collect] at h
    injection h with h; subst h; exact hn
  | cons opt rest ih =>
    intro kw0 kw h hn
    simp only [wtf_collect] at h
    by_cases hmul : opt.multiple = true
    · rw [if_pos hmul] at h
      cases hcur : dget kw0 opt.name with
      | none =>
        rw [hcur] at h
        exact ih _ kw h (nodup_dkeys_dset _ _ _ hn)
      | some v =>
        rw [hcur] at h
        cases v with
        | vList vs => exact ih _ kw h (nodup_dkeys_dset _ _ _ hn)
        | vNone => cases h
        | vBool b => cases h
        | vInt n => cases h
        | vStr s => cases h
        | vDate y mo d hh mi se => cases h
        | vThunk r => cases h
    · rw [if_neg hmul] at h
      exact ih _ kw h (nodup_dkeys_dset _ _ _ hn)

theorem wtf_collect_multiple_single (formData : String → Value)
    (opts : List Opt) (opt : Opt) :
    ∀ kw0 kw, wtf_collect formData opts kw0 = .ok kw →
      (opts.map Opt.name).Nodup → opt ∈ opts → opt.multiple = true →
      dget kw0 opt.name = none →
      dget kw opt.name = some (.vList [formData opt.name]) := by
  induction opts with
  | nil =>
    intro kw0 kw h hn hm
    cases hm
  | cons o rest ih =>
    intro kw0 kw h hn hm hmul hnone
    simp only [List.map_cons, List.nodup_cons] at hn
    simp only [wtf_collect] at h
    rcases List.mem_cons.mp hm with he | hmr
    · subst he
      rw [if_pos hmul, hnone] at h
      have hrest : ∀ o' ∈ rest, o'.name ≠ opt.name := by
        intro o' ho' hcontra
        exact hn.1 (hcontra ▸ List.mem_map_of_mem Opt.name ho')
      rw [wtf_collect_pres formData rest opt.name hrest _ kw h]
      rw [dget_dset_self]
    · have hne : o.name ≠ opt.name := by
        intro hcontra
        exact hn.1 (hcontra ▸ List.mem_map_of_mem Opt.name hmr)
      by_cases hmo : o.multiple = true
      · rw [if_pos hmo] at h
        cases hcur : dget kw0 o.name with
        | none =>
          rw [hcur] at h
          exact ih _ kw h hn.2 hmr hmul
            (by rw [dget_dset_ne _ _ _ _ hne]; exact hnone)
        | some v =>
          rw [hcur] at h
          cases v with
          | vList vs =>
            exact ih _ kw h hn.2 hmr hmul
              (by rw [dget_dset_ne _ _ _ _ hne]; exact hnone)
          | vNone => cases h
          | vBool b => cases h
          | vInt n => cases h
          | vStr s => cases h
          | vDate y mo d hh mi se => cases h
          | vThunk r => cases h
      · rw [if_neg hmo] at h
        exact ih _ kw h hn.2 hmr hmul
          (by rw [dget_dset_ne _ _ _ _ hne]; exact hnone)

theorem gen_collect_gobbled_pres (c : ClickToGeneric)
    (form : List (String × GenericField)) (opts : List Opt) (k : String)
    (hg : c.gobbled k = true) :
    ∀ kw0 kw, gen_collect c form opts kw0 = .ok kw →
      dget kw k = dget kw0 k := by
  induction opts with
  | nil =>
    intro kw0 kw h
    simp only [gen_collect] at h
    injection h with h; subst h; rfl
  | cons opt rest ih =>
    intro kw0 kw h
    simp only [gen_collect] at h
    by_cases hgo : c.gobbled opt.name = true
    · rw [if_pos hgo] at h
      exact ih _ kw h
    · rw [if_neg hgo] at h
      have hne : opt.name ≠ k := fun he => hgo (he ▸ hg)
      cases hf : form_getattr form opt.name with
      | none => rw [hf] at h; cases h
      | some field =>
        simp only [hf] at h
        by_cases hmul : opt.multiple = true
        · rw [if_pos hmul] at h
          cases hcur : dget kw0 opt.name with
          | none =>
            rw [hcur] at h
            rw [ih _ kw h, dget_dset_ne _ _ _ _ hne]
          | some v =>
            rw [hcur] at h
            cases v with
            | vList vs => rw [ih _ kw h, dget_dset_ne _ _ _ _ hne]
            | vNone => cases h
            | vBool b => cases h
            | vInt n => cases h
            | vStr s => cases h
            | vDate y mo d hh mi se => cases h
            | vThunk r => cases h
        · rw [if_neg hmul] at h
          rw [ih _ kw h, dget_dset_ne _ _ _ _ hne]

/-! ## The claims -/

/-- C7: the `watched` decorator is transparent — on normal completion it
returns the wrapped callable's result unchanged; on any exception it emits
the end/error record carrying the stringified exception and re-raises the
original exception unchanged; a failure to stringify the result is caught
locally (logged, placeholder kept) and masks neither the real result nor a
real exception. -/
theorem watched_transparent (name : String)
    (wrapped : Unit → Except String Value)
    (str_of : Value → Except String String) :
    (watched_call name wrapped str_of).2 = wrapped () ∧
    (∀ e, wrapped () = .error e →
      watched_call name wrapped str_of =
        ([.start name, .endError name e], .error e)) ∧
    (∀ r e, wrapped () = .ok r → str_of r = .error e →
      watched_call name wrapped str_of =
        ([.start name, .strFailure e, .endOk name "(unknown)"], .ok r)) := by
  refine ⟨?_, ?_, ?_⟩
  · cases hw : wrapped () with
    | ok r =>
      cases hs : str_of r with
      | ok s => simp [watched_call, hw, hs]
      | error e => simp [watched_call, hw, hs]
    | error e => simp [watched_call, hw]
  · intro e hw
    simp [watched_call, hw]
  · intro r e hw hs
    simp [watched_call, hw, hs]

/-- C7 witness: a concrete run of each branch of `watched_transparent`. -/
theorem watched_transparent_witness :
    ((watched_call "foo" (fun _ => .ok (.vInt 3))
        (fun _ => .ok "3")).2 = .ok (.vInt 3)) ∧
    (watched_call "foo" (fun _ => .error "boom")
        (fun _ => .ok "3") =
      ([.start "foo", .endError "foo" "boom"], .error "boom")) ∧
    (watched_call "foo" (fun _ => .ok (.vInt 3))
        (fun _ => .error "unprintable") =
      ([.start "foo", .strFailure "unprintable", .endOk "foo" "(unknown)"],
        .ok (.vInt 3))) :=
  ⟨(watched_transparent "foo" (fun _ => .ok (.vInt 3))
      (fun _ => .ok "3")).1,
   (watched_transparent "foo" (fun _ => .error "boom")
      (fun _ => .ok "3")).2.1 "boom" rfl,
   (watched_transparent "foo" (fun _ => .ok (.vInt 3))
      (fun _ => .error "unprintable")).2.2 (.vInt 3) "unprintable" rfl rfl⟩

/-- C8: `LockFile` acquisition fails with `AlreadyLocked` naming the path
exactly when the marker already exists, and otherwise creates the marker
and succeeds; release runs on every exit path (body exceptions still
propagate), deletes the marker, and a missing marker never makes release
fail (it is the identity). -/
theorem lockfile_scoped (fs : FileSys) (lockpath content : String)
    (body : FileSys → FileSys × Except String Value) :
    (lockfile_enter fs lockpath content =
        .error ("FileExistsError: " ++ lockpath) ↔
      fsExists fs lockpath = true) ∧
    (fsExists fs lockpath = false →
      lockfile_enter fs lockpath content =
        .ok (fsWrite fs lockpath content) ∧
      fsExists (fsWrite fs lockpath content) lockpath = true) ∧
    (fsExists fs lockpath = false →
      (with_lockfile fs lockpath content body).2 =
        (body (fsWrite fs lockpath content)).2 ∧
      fsExists (with_lockfile fs lockpath content body).1 lockpath =
        false) ∧
    (fsExists fs lockpath = false → remove_lock fs lockpath = fs) := by
  have hwr : ∀ fs' : FileSys, fsExists (fsWrite fs' lockpath content)
      lockpath = true := by
    intro fs'
    by_cases hx : fs'.any (fun q => q.1 == lockpath) = true
    · simp only [fsWrite, hx, if_true, fsExists]
      refine List.any_eq_true.mpr ?_
      rcases List.any_eq_true.mp hx with ⟨q, hq, hqe⟩
      exact ⟨(lockpath, content),
        List.mem_map.mpr ⟨q, hq, by simp [hqe]⟩, by simp⟩
    · simp [fsWrite, hx, fsExists]
  have hrm : ∀ fs' : FileSys,
      fsExists (fsRemove fs' lockpath) lockpath = false := by
    intro fs'
    simp [fsRemove, fsExists, List.any_eq_true]
  refine ⟨?_, ?_, ?_, ?_⟩
  · constructor
    · intro h
      by_contra hne
      have : fsExists fs lockpath = false := by
        cases hv : fsExists fs lockpath
        · rfl
        · exact absurd hv hne
      rw [lockfile_enter, this] at h
      simp at h
    · intro h
      rw [lockfile_enter, h]
      simp
  · intro h
    rw [lockfile_enter, h]
    exact ⟨by simp, hwr fs⟩
  · intro h
    have henter : lockfile_enter fs lockpath content =
        .ok (fsWrite fs lockpath content) := by
      rw [lockfile_enter, h]; simp
    constructor
    · rw [with_lockfile, henter]
    · rw [with_lockfile, henter]
      show fsExists (lockfile_exit (body (fsWrite fs lockpath content)).1
        lockpath) lockpath = false
      rw [lockfile_exit, remove_lock]
      by_cases hx : fsExists (body (fsWrite fs lockpath content)).1
          lockpath = true
      · rw [if_pos hx]
        exact hrm _
      · have hx' : fsExists (body (fsWrite fs lockpath content)).1
            lockpath = false := by
          cases hv : fsExists (body (fsWrite fs lockpath content)).1 lockpath
          · rfl
          · exact absurd hv hx
        rw [if_neg hx]
        exact hx'
  · intro h
    rw [remove_lock, h]
    simp

/-- C8 witness: on an empty file system the lock is acquired, a failing
body's exception propagates, and the marker is gone afterwards; a second
acquisition under an existing marker fails naming the path. -/
theorem lockfile_scoped_witness :
    (fsExists [] "/tmp/a.lock" = false) ∧
    ((with_lockfile [] "/tmp/a.lock" "pid=1"
        (fun fs1 => (fs1, .error "boom"))).2 = .error "boom") ∧
    (fsExists (with_lockfile [] "/tmp/a.lock" "pid=1"
        (fun fs1 => (fs1, .error "boom"))).1 "/tmp/a.lock" = false) ∧
    (lockfile_enter [("/tmp/a.lock", "pid=1")] "/tmp/a.lock" "pid=2" =
      .error ("FileExistsError: " ++ "/tmp/a.lock")) := by
  have h := lockfile_scoped [] "/tmp/a.lock" "pid=1"
    (fun fs1 => (fs1, .error "boom"))
  have h2 := lockfile_scoped [("/tmp/a.lock", "pid=1")] "/tmp/a.lock"
    "pid=2" (fun fs1 => (fs1, .ok .vNone))
  refine ⟨rfl, ?_, ?_, ?_⟩
  · exact ((h.2.2.1 rfl).1).trans rfl
  · exact (h.2.2.1 rfl).2
  · exact h2.1.mpr rfl

/-- C9: `run_cmd` with a negative timeout accepts a subprocess timeout (no
error when the deadline fires with the process still running); with a
positive timeout the subprocess timeout is re-raised; and a non-zero exit
code from a process that exits before any timeout always raises an error
naming the code and the command. -/
theorem runCmd_timeout_semantics (cmd : String) :
    (∀ (t : Int) (p : ProcBehaviour), t < 0 →
      proc_wait p t.natAbs = .error () →
      runCmd cmd (some t) p = .ok ()) ∧
    (∀ (t : Int) (p : ProcBehaviour), 0 < t →
      proc_wait p t.natAbs = .error () →
      runCmd cmd (some t) p = .error .timeoutExpired) ∧
    (∀ (t : Int) (time : Nat) (code : Int), code ≠ 0 → time ≤ t.natAbs →
      runCmd cmd (some t) { exits := some (time, code) } =
        .error (.errorCode
          ("Error code " ++ toString code ++ " in cmd " ++ cmd))) := by
  refine ⟨?_, ?_, ?_⟩
  · intro t p ht hw
    simp [runCmd, hw, ht, proc_returncode_running, Except.bind]
  · intro t p ht hw
    have hneg : ¬ t < 0 := by omega
    simp [runCmd, hw, hneg, Except.bind]
  · intro t time code hc htime
    have hw : proc_wait { exits := some (time, code) } t.natAbs =
        .ok code := by
      simp [proc_wait, htime]
    simp [runCmd, hw, Except.bind, hc]

/-- C9 witness: the three behaviours at concrete inputs — `timeout=-4`
with a still-running server is accepted, `timeout=5` with a still-running
process re-raises the timeout, and an exit code 2 after 1 second under
`timeout=30` raises the `ValueError` naming code and command. -/
theorem runCmd_timeout_semantics_witness :
    (runCmd "flask run" (some (-4)) { exits := none } = .ok ()) ∧
    (runCmd "flask run" (some 5) { exits := none } =
      .error .timeoutExpired) ∧
    (runCmd "flask run" (some 30) { exits := some (1, 2) } =
      .error (.errorCode
        ("Error code " ++ toString (2 : Int) ++ " in cmd " ++
          "flask run"))) :=
  ⟨(runCmd_timeout_semantics "flask run").1 (-4) { exits := none }
      (by decide) rfl,
   (runCmd_timeout_semantics "flask run").2.1 5 { exits := none }
      (by decide) rfl,
   (runCmd_timeout_semantics "flask run").2.2 30 1 2 (by decide)
      (by decide)⟩

/-- C3: for a date-time field, every non-empty submitted string that fails
to parse leaves the field's data as that non-empty string (so the
`DataRequired` validator is satisfied) and surfaces exactly the parse
error carrying the underlying parser message — never the required-field
error — and the input `"2021-01-23"` parses successfully. -/
theorem dt_field_parse_error_not_required
    (parse : String → Except String Value) (vl : List String)
    (init : Value) (m : String)
    (hne : String.intercalate " " vl ≠ "")
    (herr : parse (String.intercalate " " vl) = .error m) :
    ((dt_process_formdata parse vl init).data =
      .vStr (String.intercalate " " vl)) ∧
    (∀ required, dt_field_errors parse vl init required = [m]) ∧
    (∀ init', dt_process_formdata dateutil_parse ["2021-01-23"] init' =
      { data := .vDate 2021 1 23 0 0 0, process_errors := [] }) := by
  cases vl with
  | nil => exact absurd rfl hne
  | cons v rest =>
    have hstate : dt_process_formdata parse (v :: rest) init =
        { data := .vStr (String.intercalate " " (v :: rest)),
          process_errors := [m] } := by
      simp only [dt_process_formdata]
      rw [if_neg hne, herr]
    have hf : falsy (.vStr (String.intercalate " " (v :: rest))) = false := by
      simpa [falsy] using hne
    refine ⟨by rw [hstate], ?_, fun init' => rfl⟩
    intro required
    simp only [dt_field_errors, hstate, hf]
    simp

/-- C3 witness: the concrete bad input `"not-a-date"` yields exactly the
parser's message even on a required field, and `"2021-01-23"` parses. -/
theorem dt_field_parse_error_not_required_witness :
    ((dt_process_formdata dateutil_parse ["not-a-date"] .vNone).data =
      .vStr "not-a-date") ∧
    (dt_field_errors dateutil_parse ["not-a-date"] .vNone true =
      ["Unknown string format: not-a-date"]) ∧
    (dt_process_formdata dateutil_parse ["2021-01-23"] .vNone =
      { data := .vDate 2021 1 23 0 0 0, process_errors := [] }) := by
  have h := dt_field_parse_error_not_required dateutil_parse
    ["not-a-date"] .vNone "Unknown string format: not-a-date"
    (by decide) rfl
  exact ⟨h.1, h.2.1 true, h.2.2 .vNone⟩

/-- C4 counterexample: the claim says every write-mode file option fails
with `UnsupportedType` in both mappers, but the Generic Adapter's
`click_opt_to_field` maps a `click.File('w')` option to a file field and
succeeds. -/
theorem write_file_maps_in_generic_adapter :
    click_opt_to_field wfileOpt = .ok (make_file_field wfileOpt) := rfl

/-- C4 (amended): in the Form Adapter's mapper, every option type outside
integer, string, date-time, read-mode file and choice — in particular any
non-read-mode file — fails with the `UnsupportedType` error naming the
actual type; in the Generic Adapter's mapper the supported set differs
(integer, bool, string, date-time, file of any mode, path), and every type
outside it — in particular choice — fails with the error naming the
actual type, while write-mode file options map to a field. -/
theorem unsupported_type_errors
    (opt : Opt) :
    (opt.type ≠ .int → opt.type ≠ .string →
      opt.type.isDateTimeLike = false → opt.type.isFileRead = false →
      opt.type.tname ≠ "choice" →
      click_opt_to_wtf_field opt =
        .error ("Cannot represent click type " ++ opt.type.tstr ++
          " in WTF")) ∧
    (∀ mode, opt.type = .file mode → mode ≠ "r" → mode ≠ "rb" →
      click_opt_to_wtf_field opt =
        .error ("Cannot represent click type " ++ opt.type.tstr ++
          " in WTF")) ∧
    (opt.type ≠ .int → opt.type ≠ .bool → opt.type ≠ .string →
      opt.type.isDateTimeLike = false → opt.type.isFileOrPath = false →
      click_opt_to_field opt =
        .error ("Cannot represent click type " ++ opt.type.tstr)) ∧
    (∀ cs, opt.type = .choice cs →
      click_opt_to_field opt =
        .error ("Cannot represent click type " ++ opt.type.tstr)) := by
  have wtf_err : opt.type ≠ .int → opt.type ≠ .string →
      opt.type.isDateTimeLike = false → opt.type.isFileRead = false →
      opt.type.tname ≠ "choice" →
      click_opt_to_wtf_field opt =
        .error ("Cannot represent click type " ++ opt.type.tstr ++
          " in WTF") := by
    intro h1 h2 h3 h4 h5
    simp only [click_opt_to_wtf_field]
    rw [if_neg h1, if_neg h2, if_neg (by simp [h3]),
      if_neg (by simp [h4]), if_neg h5]
  have gen_err : opt.type ≠ .int → opt.type ≠ .bool → opt.type ≠ .string →
      opt.type.isDateTimeLike = false → opt.type.isFileOrPath = false →
      click_opt_to_field opt =
        .error ("Cannot represent click type " ++ opt.type.tstr) := by
    intro h1 h2 h3 h4 h5
    simp only [click_opt_to_field]
    rw [if_neg h1, if_neg h2, if_neg h3, if_neg (by simp [h4]),
      if_neg (by simp [h5])]
  refine ⟨wtf_err, ?_, gen_err, ?_⟩
  · intro mode hm hr hrb
    apply wtf_err
    · rw [hm]; intro h; cases h
    · rw [hm]; intro h; cases h
    · rw [hm]; rfl
    · rw [hm]
      simp [CType.isFileRead, hr, hrb]
    · rw [hm]
      show "filename" ≠ "choice"
      decide
  · intro cs hc
    apply gen_err
    · rw [hc]; intro h; cases h
    · rw [hc]; intro h; cases h
    · rw [hc]; intro h; cases h
    · rw [hc]; rfl
    · rw [hc]; rfl

/-- C4 witness: the concrete write-mode file option fails in the Form
Adapter's mapper naming its type, and the concrete choice option fails in
the Generic Adapter's mapper naming its type. -/
theorem unsupported_type_errors_witness :
    (click_opt_to_wtf_field wfileOpt =
      .error ("Cannot represent click type " ++
        "<click.types.File object>" ++ " in WTF")) ∧
    (click_opt_to_field choiceOpt =
      .error ("Cannot represent click type " ++ "Choice")) :=
  ⟨(unsupported_type_errors wfileOpt).2.1 "w" rfl (by decide) (by decide),
   (unsupported_type_errors choiceOpt).2.2.2 ["red", "green", "blue"] rfl⟩

/-- C2: no field is ever constructed for an option claimed by a Tweak's
gobble step — in either adapter's built field set — so such an option can
never contribute a required-field validation failure, whatever its
`required` flag on the command. -/
theorem gobbled_options_never_fielded (X : String) :
    (∀ c : ClickToWTF, gobbleAny c.tweaks X = true →
      ∀ fs, c.form_cls = .ok fs →
        (∀ f ∈ fs, f.name ≠ X) ∧
        ∀ formData m, (X, m) ∉ required_errors fs formData) ∧
    (∀ g : ClickToGeneric, gobbleAny g.tweaks X = true →
      ∀ gfs, g.form_fields = .ok gfs → ∀ p ∈ gfs, p.1 ≠ X) := by
  constructor
  · intro c hg fs hfs
    have hnames : ∀ f ∈ fs, f.name ≠ X := by
      intro f hf
      obtain ⟨opt, hopt, hname⟩ := build_wtf_fields_names _ fs hfs f hf
      rw [hname]
      exact click_cmd_params_not_gobbled c X hg opt hopt
    refine ⟨hnames, ?_⟩
    intro formData m hmem
    obtain ⟨f, hf, hfx⟩ := required_errors_mem fs formData X m hmem
    exact hnames f hf hfx
  · intro g hg gfs hgfs p hp he
    obtain ⟨opt, hopt, hname, hgob⟩ :=
      gen_build_fields_keys g _ gfs hgfs p hp
    rw [he] at hname
    rw [← hname] at hgob
    rw [hg] at hgob
    cases hgob

/-- C2 witness: with the required `datafile` option gobbled, the built
field sets of both adapters hold only the `count` field, and no
required-field failure for `datafile` can occur. -/
theorem gobbled_options_never_fielded_witness :
    (c2wtf.form_cls = .ok [c2countField]) ∧
    (c2countField.name ≠ "datafile") ∧
    (("datafile", "* required field") ∉
      required_errors [c2countField] (fun _ => .vNone)) ∧
    (c2gen.form_fields = .ok [("count", make_int_field countOpt)]) ∧
    ("count" ≠ "datafile") := by
  have h := (gobbled_options_never_fielded "datafile").1 c2wtf rfl
    [c2countField] rfl
  have h2 := (gobbled_options_never_fielded "datafile").2 c2gen rfl
    [("count", make_int_field countOpt)] rfl
  exact ⟨rfl, h.1 c2countField (List.mem_singleton.mpr rfl),
    h.2 (fun _ => .vNone) "* required field", rfl,
    h2 ("count", make_int_field countOpt) (List.mem_singleton.mpr rfl)⟩

/-- C1: whenever a Tweak on an adapter gobbles option name `X` and the
chain's inject step effectively assigns `V` under `X` (its own assignment,
uncontested by a later tweak), the kwargs that `process` hands the
callback carry `X = V`, regardless of what (if anything) the form or the
supplied values held for `X`. -/
theorem gobbled_injection_reaches_callback (X : String) (V : Value) :
    (∀ c : ClickToWTF, (∃ t ∈ c.tweaks, t.gobbles X = true) →
      tweaks_last_pad c.tweaks X = some V →
      ∀ formData kw, c.process_kwargs formData = .ok kw →
        dget kw X = some V) ∧
    (∀ g : ClickToGeneric, (∃ t ∈ g.tweaks, t.gobbles X = true) →
      tweaks_last_pad g.tweaks X = some V →
      ∀ form kw, g.process_kwargs form = .ok kw →
        dget kw X = some V) := by
  constructor
  · intro c hgob hpad formData kw h
    simp only [ClickToWTF.process_kwargs] at h
    obtain ⟨merged, _, hkw⟩ := except_map_ok h
    subst hkw
    rw [dget_pad_kwargs, hpad]
  · intro g hgob hpad form kw h
    simp only [ClickToGeneric.process_kwargs] at h
    obtain ⟨collected, _, hkw⟩ := except_map_ok h
    subst hkw
    rw [dget_pad_kwargs, hpad]

/-- C1 witness: with `secret` gobbled and `"injected"` padded, the
callback kwargs of both adapters carry the injected value, whatever the
form submitted. -/
theorem gobbled_injection_reaches_callback_witness :
    (dget [("secret", Value.vStr "injected")] "secret" =
      some (.vStr "injected")) ∧
    (dget (pad_kwargs c1gen.tweaks []) "secret" =
      some (.vStr "injected")) :=
  ⟨(gobbled_injection_reaches_callback "secret" (.vStr "injected")).1
      c1wtf ⟨c1tweak, List.mem_singleton.mpr rfl, rfl⟩ rfl
      (fun _ => .vStr "submitted") _ rfl,
   (gobbled_injection_reaches_callback "secret" (.vStr "injected")).2
      c1gen ⟨c1tweak, List.mem_singleton.mpr rfl, rfl⟩ rfl [] _ rfl⟩

/-- C10: in the Form Adapter's process step the assembled kwargs contain
an entry for every declared option — including options excluded by the
skip pattern and gobbled options, which carry the Command Descriptor's
declared default — before any Tweak inject step runs; the kwargs passed to
the callback are exactly that dict after the inject steps (which may then
overwrite gobbled entries). -/
theorem assembled_kwargs_cover_all_params (c : ClickToWTF)
    (formData : String → Value)
    (hnodup : (c.clickCmd.params.map Opt.name).Nodup) :
    ∀ kw, c.assembled formData = .ok kw →
      (∀ opt ∈ c.clickCmd.params,
        (dget kw opt.name).isSome ∧
        ((c.skipMatch opt.name = true ∨
            gobbleAny c.tweaks opt.name = true) →
          dget kw opt.name = some opt.default)) ∧
      c.process_kwargs formData = .ok (pad_kwargs c.tweaks kw) := by
  intro kw h
  have horig := h
  simp only [ClickToWTF.assembled] at h
  obtain ⟨collected, hcol, hkw⟩ := except_map_ok h
  subst hkw
  have hnodupKeys : (dkeys collected).Nodup :=
    wtf_collect_nodup_keys formData _ [] collected hcol (by simp [dkeys])
  constructor
  · intro opt hopt
    rw [dget_apply_assignments,
      last_assign_eq_dget_of_nodup collected hnodupKeys]
    by_cases hexc : c.skipMatch opt.name = true ∨
        gobbleAny c.tweaks opt.name = true
    · have hnotin : ∀ o ∈ c.click_cmd_params, o.name ≠ opt.name := by
        intro o ho he
        have hf := List.of_mem_filter ho
        rw [he] at hf
        rcases hexc with hs | hg
        · rw [hs] at hf; simp at hf
        · rw [hg] at hf; simp at hf
      have hpres : dget collected opt.name = dget [] opt.name :=
        wtf_collect_pres formData _ opt.name hnotin [] collected hcol
      have hdef := dget_defaults_dict c.clickCmd opt hopt hnodup
      rw [hpres]
      exact ⟨by simp [dget, hdef], fun _ => by simp [dget, hdef]⟩
    · push_neg at hexc
      have h1 : c.skipMatch opt.name = false :=
        Bool.eq_false_iff.mpr hexc.1
      have h2 : gobbleAny c.tweaks opt.name = false :=
        Bool.eq_false_iff.mpr hexc.2
      have hmem2 : opt ∈ c.click_cmd_params := by
        rw [ClickToWTF.click_cmd_params, List.mem_filter]
        exact ⟨hopt, by simp [h1, h2]⟩
      have hs := wtf_collect_isSome formData _ opt.name [] collected hcol
        (Or.inr ⟨opt, hmem2, rfl⟩)
      cases hval : dget collected opt.name with
      | none => rw [hval] at hs; cases hs
      | some v =>
        refine ⟨by simp [hval], fun hcontra => ?_⟩
        rcases hcontra with hs' | hg'
        · rw [hs'] at h1; cases h1
        · rw [hg'] at h2; cases h2
  · simp only [ClickToWTF.process_kwargs, horig, Except.map]

/-- C10 witness: the assembled kwargs hold all three declared options,
with the skipped and gobbled ones carrying their declared defaults. -/
theorem assembled_kwargs_cover_all_params_witness :
    (dget [("count", Value.vInt 1), ("text", Value.vStr "bye"),
        ("datafile", Value.vNone)] "count" = some (.vInt 1)) ∧
    (dget [("count", Value.vInt 1), ("text", Value.vStr "bye"),
        ("datafile", Value.vNone)] "datafile" = some .vNone) ∧
    ((dget [("count", Value.vInt 1), ("text", Value.vStr "bye"),
        ("datafile", Value.vNone)] "text").isSome) := by
  have h := assembled_kwargs_cover_all_params c10wtf
    (fun _ => .vStr "bye") (by decide)
    [("count", Value.vInt 1), ("text", Value.vStr "bye"),
      ("datafile", Value.vNone)] rfl
  have hc := h.1 countOpt
    (List.mem_cons_self countOpt _ :
      countOpt ∈ [countOpt, textOpt, datafileOpt])
  have ht := h.1 textOpt
    (List.mem_cons_of_mem _ (List.mem_cons_self textOpt _) :
      textOpt ∈ [countOpt, textOpt, datafileOpt])
  have hd := h.1 datafileOpt
    (List.mem_cons_of_mem _ (List.mem_cons_of_mem _
        (List.mem_cons_self datafileOpt _)) :
      datafileOpt ∈ [countOpt, textOpt, datafileOpt])
  exact ⟨hc.2 (Or.inl rfl), hd.2 (Or.inr rfl), ht.1⟩

/-- C5 (amended): only the Form Adapter's assemble step falls back to the
Command Descriptor's declared default for declared options with no
collected field value; the Generic Adapter has no such fallback — an
option claimed as gobbled is simply omitted from the collected kwargs
(left entirely to the inject step). -/
theorem default_fallback_only_in_form_adapter (X : String) :
    (∀ (c : ClickToWTF) (formData : String → Value),
      (c.clickCmd.params.map Opt.name).Nodup →
      ∀ opt ∈ c.clickCmd.params,
        (∀ o ∈ c.click_cmd_params, o.name ≠ opt.name) →
        ∀ kw, c.assembled formData = .ok kw →
          dget kw opt.name = some opt.default) ∧
    (∀ g : ClickToGeneric, g.gobbled X = true →
      ∀ form kw, gen_collect g form g.click_cmd.params [] = .ok kw →
        dget kw X = none) := by
  constructor
  · intro c formData hnodup opt hopt hnotin kw h
    simp only [ClickToWTF.assembled] at h
    obtain ⟨collected, hcol, hkw⟩ := except_map_ok h
    subst hkw
    have hnodupKeys : (dkeys collected).Nodup :=
      wtf_collect_nodup_keys formData _ [] collected hcol (by simp [dkeys])
    rw [dget_apply_assignments,
      last_assign_eq_dget_of_nodup collected hnodupKeys]
    have hpres : dget collected opt.name = dget [] opt.name :=
      wtf_collect_pres formData _ opt.name hnotin [] collected hcol
    rw [hpres]
    have hdef := dget_defaults_dict c.clickCmd opt hopt hnodup
    simp [dget, hdef]
  · intro g hg form kw h
    rw [gen_collect_gobbled_pres g form _ X hg [] kw h]
    rfl

/-- C5 counterexample: the claim says an option absent from the field set
falls back to its declared default in the kwargs of both adapters, but the
Generic Adapter's process instead fails with `AttributeError` on the
skip-pattern-excluded `flag` option — the callback never runs and no
default is supplied. -/
theorem skipped_option_crashes_generic_adapter :
    c5gen.handle_request [] = .error "AttributeError: flag" := rfl

/-- C5 witness: in the Form Adapter the skipped `count` option falls back
to its declared default `1`; in the Generic Adapter the gobbled `datafile`
option is absent from the collected kwargs. -/
theorem default_fallback_only_in_form_adapter_witness :
    (dget [("count", Value.vInt 1), ("text", Value.vStr "bye"),
        ("datafile", Value.vNone)] "count" = some (.vInt 1)) ∧
    (dget [("count", Value.vInt 1)] "datafile" = none) :=
  ⟨(default_fallback_only_in_form_adapter "datafile").1 c10wtf
      (fun _ => .vStr "bye") (by decide) countOpt
      (List.mem_cons_self countOpt _ :
        countOpt ∈ [countOpt, textOpt, datafileOpt])
      (by decide)
      [("count", Value.vInt 1), ("text", Value.vStr "bye"),
        ("datafile", Value.vNone)] rfl,
   (default_fallback_only_in_form_adapter "datafile").2 c2gen rfl
      [("count", make_int_field countOpt)] [("count", Value.vInt 1)] rfl⟩

/-- C6 (amended): a `multiple`-valued option contributes exactly a
1-element sequence holding its single field value to the assembled kwargs:
each declared option is read once, so repeated submissions of the same
field name never accumulate (a longer sequence could only arise from
several declared options sharing a name). -/
theorem multiple_option_yields_single_element (c : ClickToWTF)
    (formData : String → Value) (opt : Opt)
    (hnodup : (c.click_cmd_params.map Opt.name).Nodup)
    (hmem : opt ∈ c.click_cmd_params) (hmul : opt.multiple = true) :
    ∀ kw, c.assembled formData = .ok kw →
      dget kw opt.name = some (.vList [formData opt.name]) := by
  intro kw h
  simp only [ClickToWTF.assembled] at h
  obtain ⟨collected, hcol, hkw⟩ := except_map_ok h
  subst hkw
  have hsingle := wtf_collect_multiple_single formData _ opt [] collected
    hcol hnodup hmem hmul rfl
  have hnodupKeys : (dkeys collected).Nodup :=
    wtf_collect_nodup_keys formData _ [] collected hcol (by simp [dkeys])
  rw [dget_apply_assignments,
    last_assign_eq_dget_of_nodup collected hnodupKeys, hsingle]

/-- C6 counterexample: the claim says submitting the same `multiple` field
three times yields a 3-element ordered sequence, but the kwargs passed to
the callback hold a 1-element sequence with the field's single value (the
first submission). -/
theorem multiple_submissions_do_not_accumulate :
    kwargs_value (c6wtf.process_kwargs c6formData) "also" =
      some (.vList [.vStr "a"]) ∧
    kwargs_value (c6wtf.process_kwargs c6formData) "also" ≠
      some (.vList [.vStr "a", .vStr "b", .vStr "c"]) := by
  have h1 : kwargs_value (c6wtf.process_kwargs c6formData) "also" =
      some (.vList [.vStr "a"]) := rfl
  refine ⟨h1, ?_⟩
  intro h
  rw [h1] at h
  simp at h

/-- C6 witness: the 1-element sequence in the assembled kwargs of the
counterexample scenario, through the amended theorem. -/
theorem multiple_option_yields_single_element_witness :
    dget [("also", Value.vList [Value.vStr "a"])] "also" =
      some (.vList [.vStr "a"]) :=
  multiple_option_yields_single_element c6wtf c6formData alsoOpt
    (by decide)
    (List.mem_cons_self alsoOpt _ : alsoOpt ∈ [alsoOpt]) rfl
    [("also", Value.vList [Value.vStr "a"])] rfl

end OxUi

